import Mathlib

/-!
Shallow embedding of `src/graph/base.py` (oliben67/graph).

The Python module builds in-memory graphs: a `Graph` owns sets of
`Vertex` and `Edge` objects; vertices are minted by `Graph.create_vertex`
behind a construction gate (`restrict_member_class_init`), edges by the
vertex relationship methods `edge` / `ledge` / `redge`, deduplicated in
`save_relationship` by a structural hash string, with `GraphWarning`
raised on duplicates.

Mutable Python objects are modelled by an explicit heap: stores mapping
numeric identities to `Vertex` / `Edge` / `GraphSt` records inside a
`State`.  Object identity (Python `id` / the `uuid4` field, whose hash is
what the code compares) is modelled by a `Nat` minted from a global
fresh counter `nextId`.  New store entries are consed at the front and
`lookup` takes the first match, mirroring rebinding.  The class-level
gate attributes `Graph._gate_keeper` and `Vertex._gate_keeper` are two
`Option Nat` fields of the state.  Exceptions are modelled with
`Except PyError`; warnings issued by `warnings.warn` are collected in a
list.
-/

namespace GraphPy

/-- Payloads (`value` of a Vertex, `weight` of an Edge).  The repository
only ever stores JSON-serialisable payloads (ints, strings, `None`), so
the `json.dumps` TypeError fallback in the renderers is dead code for
this type. -/
inductive Value where
  | vnone : Value
  | vint : Int → Value
  | vstr : String → Value
deriving DecidableEq

/-- `Direction` enum of the source. -/
inductive Direction where
  | LEFT : Direction
  | RIGHT : Direction
  | NONE : Direction
deriving DecidableEq

/-- Exceptions the modelled code can raise: `GraphError` from the gated
constructor, and Python `AttributeError` for an access to an attribute
that does not exist (`Vertex.rledge`, called at source line 142). -/
inductive PyError where
  | graphError : PyError
  | attributeError : PyError
deriving DecidableEq

/-- Warnings.  The code only ever issues `GraphWarning "Edge ... already
exists"`, modelled as `duplicateEdge`.  `crossGraphClone` is the warning
the specification names for cross-graph edges; it exists in this type so
its absence can be stated, but no code path emits it. -/
inductive Warn where
  | duplicateEdge : Warn
  | crossGraphClone : Warn
deriving DecidableEq

/-- A `Vertex` object: `id` (the uuid, modelled as its hash), the opaque
`value`, and the owning graph (by identity). -/
structure Vertex where
  vid : Nat
  value : Value
  graph : Nat
deriving DecidableEq

/-- An `Edge` object: `id`, the two endpoint vertices (by identity),
`direction`, `weight`. -/
structure Edge where
  eid : Nat
  vertex1 : Nat
  vertex2 : Nat
  direction : Direction
  weight : Value
deriving DecidableEq

/-- The two owned collections of a `Graph` object, holding member
identities. -/
structure GraphSt where
  vertices : List Nat
  edges : List Nat
deriving DecidableEq

/-- The whole mutable world: the fresh-identity counter, the three
object stores, and the two class-level gate attributes. -/
structure State where
  nextId : Nat
  graphStore : List (Nat × GraphSt)
  vertexStore : List (Nat × Vertex)
  edgeStore : List (Nat × Edge)
  gateGraph : Option Nat
  gateVertex : Option Nat
deriving DecidableEq

/-- The empty world, before any object is created. -/
def State.empty : State :=
  { nextId := 0, graphStore := [], vertexStore := [], edgeStore := [],
    gateGraph := none, gateVertex := none }

/-- First-match association lookup (dereferencing an object identity). -/
def lookup {α : Type} : List (Nat × α) → Nat → Option α
  | [], _ => none
  | (j, x) :: rest, i => if j = i then some x else lookup rest i

/-- In-place mutation of the object with identity `i` (Python attribute
assignment on a shared reference). -/
def setStore {α : Type} (store : List (Nat × α)) (i : Nat) (f : α → α) :
    List (Nat × α) :=
  store.map (fun p => if p.1 = i then (p.1, f p.2) else p)

/-- `str(Direction.X)` as interpolated by the f-string in
`Edge._get_unique_id`. -/
def directionStr : Direction → String
  | Direction.LEFT => "Direction.LEFT"
  | Direction.RIGHT => "Direction.RIGHT"
  | Direction.NONE => "Direction.NONE"

/-- Python `str()` of a payload, as interpolated by the f-string in
`Edge._get_unique_id`. -/
def pyStr : Value → String
  | Value.vnone => "None"
  | Value.vint i => toString i
  | Value.vstr s => s

/-- JSON string escaping (`json.dumps` on a str).  Only the quote and
backslash escapes can arise for the payloads the repository renders. -/
def jsonEscape (s : String) : String :=
  String.join (s.data.map (fun c =>
    if c = '"' then "\\\"" else if c = '\\' then "\\\\" else String.singleton c))

/-- `json.dumps` on a payload. -/
def jsonDumps : Value → String
  | Value.vnone => "null"
  | Value.vint i => toString i
  | Value.vstr s => "\"" ++ jsonEscape s ++ "\""

/-- `Edge._get_unique_id` (source lines 120-121): the structural key
string `f"{hash(self.vertex1)}{hash(self.vertex2)}{self.direction}{self.weight}"`.
`hash(vertex)` is `hash(vertex.id)`, modelled as the vertex identity;
`Edge.__hash__` hashes this string, and `save_relationship` compares
those hashes, so the key string itself is the structural identity. -/
def Edge.uniqueId (e : Edge) : String :=
  toString e.vertex1 ++ toString e.vertex2 ++ directionStr e.direction ++ pyStr e.weight

/-- `Vertex.__str__` (source lines 104-109). -/
def Vertex.text (v : Vertex) : String :=
  "(value: " ++ jsonDumps v.value ++ ")"

/-- Render a vertex identity through the store (the empty string case is
unreachable for edges built by the factories, whose endpoints exist). -/
def vertexText (s : State) (vid : Nat) : String :=
  match lookup s.vertexStore vid with
  | none => ""
  | some v => Vertex.text v

/-- `Edge.__str__` (source lines 154-168). -/
def Edge.text (s : State) (e : Edge) : String :=
  let relWeight :=
    match e.weight with
    | Value.vnone => ""
    | w => "weight: " ++ jsonDumps w
  let relStr0 := "--[" ++ relWeight ++ "]--"
  let relStr :=
    match e.direction with
    | Direction.LEFT => "<" ++ relStr0
    | Direction.RIGHT => relStr0 ++ ">"
    | Direction.NONE => relStr0
  vertexText s e.vertex1 ++ " " ++ relStr ++ " " ++ vertexText s e.vertex2

/-- The gated `Vertex.__init__` (inherited from `Graph.MemberClass`,
source lines 33-38): raises `GraphError` unless `Graph._gate_keeper` is
set, otherwise mints a fresh-identity vertex. -/
def Vertex.make (s : State) (value : Value) (graph : Nat) :
    Except PyError (Nat × State) :=
  match s.gateGraph with
  | none => Except.error PyError.graphError
  | some _ =>
    let vid := s.nextId
    Except.ok (vid,
      { s with nextId := s.nextId + 1,
               vertexStore := (vid, { vid := vid, value := value, graph := graph }) :: s.vertexStore })

/-- The gated `Edge.__init__` (inherited from `Vertex.MemberClass`,
source lines 33-38): raises `GraphError` unless `Vertex._gate_keeper` is
set.  `direction` defaults to `Direction.NONE` (source line 117). -/
def Edge.make (s : State) (weight : Value) (v1 v2 : Nat) :
    Except PyError (Nat × State) :=
  match s.gateVertex with
  | none => Except.error PyError.graphError
  | some _ =>
    let eid := s.nextId
    Except.ok (eid,
      { s with nextId := s.nextId + 1,
               edgeStore := (eid, { eid := eid, vertex1 := v1, vertex2 := v2,
                                    direction := Direction.NONE, weight := weight }) :: s.edgeStore })

/-- `Graph()` — an unrestricted pydantic model with empty collections. -/
def Graph.new (s : State) : Nat × State :=
  let gid := s.nextId
  (gid, { s with nextId := s.nextId + 1,
                 graphStore := (gid, { vertices := [], edges := [] }) :: s.graphStore })

/-- `Graph.create_vertex` (source lines 48-53): open the gate, construct
the vertex with `graph = self`, close the gate, add it to
`self.vertices`, return it. -/
def Graph.create_vertex (s : State) (g : Nat) (data : Value) :
    Except PyError (Nat × State) :=
  let s1 := { s with gateGraph := some g }
  match Vertex.make s1 data g with
  | Except.error e => Except.error e
  | Except.ok (vid, s2) =>
    let s3 := { s2 with gateGraph := none }
    let gst := setStore s3.graphStore g (fun gs => { gs with vertices := vid :: gs.vertices })
    Except.ok (vid, { s3 with graphStore := gst })

/-- `Vertex._create_edge` (source lines 73-77): open `Vertex._gate_keeper`,
construct the edge with `vertex1 = self`, `vertex2 = vertex`, close the
gate.  (The `_graph` kwarg of the source is silently dropped by pydantic:
`Edge` declares no such field.) -/
def Vertex.createEdge (s : State) (self other : Nat) (weight : Value) :
    Except PyError (Nat × State) :=
  let s1 := { s with gateVertex := some self }
  match Edge.make s1 weight self other with
  | Except.error e => Except.error e
  | Except.ok (eid, s2) => Except.ok (eid, { s2 with gateVertex := none })

/-- The structural keys of the edges currently held by graph `g`
(the `[hash(e) for e in self.graph.edges]` comprehension of
`save_relationship`, source line 65). -/
def graphEdgeKeys (s : State) (g : Nat) : List String :=
  match lookup s.graphStore g with
  | none => []
  | some gs => gs.edges.filterMap (fun eid => (lookup s.edgeStore eid).map Edge.uniqueId)

/-- Result of a relationship call: the returned edge identity, the state
after the call, and the warnings issued during it. -/
structure EdgeResult where
  eid : Nat
  state : State
  warns : List Warn
deriving DecidableEq

/-- The `save_relationship` decorator body (source lines 61-71): after
the wrapped function built `edge`, warn `GraphWarning` if an edge with
the same structural hash is already in `self.graph.edges`, otherwise add
the new edge to that set; either way return the freshly built edge.
(The `none` branch of the edge lookup is unreachable: the wrapped
functions always return an edge they just stored.) -/
def save_relationship (s : State) (selfGraph : Nat) (eid : Nat) :
    State × List Warn :=
  match lookup s.edgeStore eid with
  | none => (s, [])
  | some e =>
    if Edge.uniqueId e ∈ graphEdgeKeys s selfGraph then
      (s, [Warn.duplicateEdge])
    else
      let gst := setStore s.graphStore selfGraph (fun gs => { gs with edges := eid :: gs.edges })
      ({ s with graphStore := gst }, [])

/-- `Vertex.edge` (source lines 79-81) wrapped by `save_relationship`:
build an undirected edge, run the dedup check against `self.graph`.
Reading `self.graph` on a dangling identity cannot happen in Python
(references do not dangle); the model raises `AttributeError` there. -/
def Vertex.edge (s : State) (self other : Nat) (weight : Value) :
    Except PyError EdgeResult :=
  match lookup s.vertexStore self with
  | none => Except.error PyError.attributeError
  | some vself =>
    match Vertex.createEdge s self other weight with
    | Except.error e => Except.error e
    | Except.ok (eid, s1) =>
      let p := save_relationship s1 vself.graph eid
      Except.ok { eid := eid, state := p.1, warns := p.2 }

/-- `Vertex.ledge` (source lines 83-87): build the edge, then assign
`edge.direction = Direction.LEFT` before the decorator's dedup check. -/
def Vertex.ledge (s : State) (self other : Nat) (weight : Value) :
    Except PyError EdgeResult :=
  match lookup s.vertexStore self with
  | none => Except.error PyError.attributeError
  | some vself =>
    match Vertex.createEdge s self other weight with
    | Except.error e => Except.error e
    | Except.ok (eid, s1) =>
      let est := setStore s1.edgeStore eid (fun e => { e with direction := Direction.LEFT })
      let p := save_relationship { s1 with edgeStore := est } vself.graph eid
      Except.ok { eid := eid, state := p.1, warns := p.2 }

/-- `Vertex.redge` (source lines 89-93): like `ledge` with
`Direction.RIGHT`. -/
def Vertex.redge (s : State) (self other : Nat) (weight : Value) :
    Except PyError EdgeResult :=
  match lookup s.vertexStore self with
  | none => Except.error PyError.attributeError
  | some vself =>
    match Vertex.createEdge s self other weight with
    | Except.error e => Except.error e
    | Except.ok (eid, s1) =>
      let est := setStore s1.edgeStore eid (fun e => { e with direction := Direction.RIGHT })
      let p := save_relationship { s1 with edgeStore := est } vself.graph eid
      Except.ok { eid := eid, state := p.1, warns := p.2 }

/-- `Vertex.__sub__` (source lines 101-102): `self.edge(other)`. -/
def Vertex.subOp (s : State) (self other : Nat) : Except PyError EdgeResult :=
  Vertex.edge s self other Value.vnone

/-- `Vertex.__lt__` (source lines 95-96): `self.ledge(other)`. -/
def Vertex.ltOp (s : State) (self other : Nat) : Except PyError EdgeResult :=
  Vertex.ledge s self other Value.vnone

/-- `Vertex.__gt__` (source lines 98-99): `self.redge(other)`. -/
def Vertex.gtOp (s : State) (self other : Nat) : Except PyError EdgeResult :=
  Vertex.redge s self other Value.vnone

/-- `Edge.__call__` (source lines 126-128): assign `self.weight = weight`
in place and return `self`. -/
def Edge.update (s : State) (self : Nat) (weight : Value) : Nat × State :=
  let est := setStore s.edgeStore self (fun e => { e with weight := weight })
  (self, { s with edgeStore := est })

/-- The argument of an Edge chain-continuation method: a bare Vertex or
another Edge (the `Union[Vertex, "Edge"]` annotation). -/
inductive Target where
  | v : Nat → Target
  | e : Nat → Target
deriving DecidableEq

/-- `Edge.edge` (source lines 130-133): delegate to
`self.vertex2.edge(other)` for a Vertex, to
`self.vertex2.edge(other.vertex1)` for an Edge. -/
def Edge.edge (s : State) (self : Nat) (other : Target) (weight : Value) :
    Except PyError EdgeResult :=
  match lookup s.edgeStore self with
  | none => Except.error PyError.attributeError
  | some ed =>
    match other with
    | Target.v vid => Vertex.edge s ed.vertex2 vid weight
    | Target.e oid =>
      match lookup s.edgeStore oid with
      | none => Except.error PyError.attributeError
      | some oed => Vertex.edge s ed.vertex2 oed.vertex1 weight

/-- `Edge.ledge` (source lines 135-138). -/
def Edge.ledge (s : State) (self : Nat) (other : Target) (weight : Value) :
    Except PyError EdgeResult :=
  match lookup s.edgeStore self with
  | none => Except.error PyError.attributeError
  | some ed =>
    match other with
    | Target.v vid => Vertex.ledge s ed.vertex2 vid weight
    | Target.e oid =>
      match lookup s.edgeStore oid with
      | none => Except.error PyError.attributeError
      | some oed => Vertex.ledge s ed.vertex2 oed.vertex1 weight

/-- `Edge.redge` (source lines 140-143).  For a bare Vertex target the
source calls `self.vertex2.rledge(other, weight)` — `rledge` is not an
attribute of `Vertex`, so Python raises `AttributeError`. -/
def Edge.redge (s : State) (self : Nat) (other : Target) (weight : Value) :
    Except PyError EdgeResult :=
  match lookup s.edgeStore self with
  | none => Except.error PyError.attributeError
  | some ed =>
    match other with
    | Target.v _ => Except.error PyError.attributeError
    | Target.e oid =>
      match lookup s.edgeStore oid with
      | none => Except.error PyError.attributeError
      | some oed => Vertex.redge s ed.vertex2 oed.vertex1 weight

/-- `Edge.__sub__` (source lines 151-152): `self.edge(other)`. -/
def Edge.subOp (s : State) (self : Nat) (other : Target) :
    Except PyError EdgeResult :=
  Edge.edge s self other Value.vnone

/-- `Edge.__lt__` (source lines 145-146): `self.ledge(other)`. -/
def Edge.ltOp (s : State) (self : Nat) (other : Target) :
    Except PyError EdgeResult :=
  Edge.ledge s self other Value.vnone

/-- `Edge.__gt__` (source lines 148-149): `self.redge(other)`. -/
def Edge.gtOp (s : State) (self : Nat) (other : Target) :
    Except PyError EdgeResult :=
  Edge.redge s self other Value.vnone

/-- The `vertices` collection of graph `g`. -/
def graphVertices (s : State) (g : Nat) : List Nat :=
  match lookup s.graphStore g with
  | none => []
  | some gs => gs.vertices

/-- The `edges` collection of graph `g`. -/
def graphEdges (s : State) (g : Nat) : List Nat :=
  match lookup s.graphStore g with
  | none => []
  | some gs => gs.edges

/-- The structural key of the edge with identity `eid`. -/
def edgeKeyAt (s : State) (eid : Nat) : Option String :=
  (lookup s.edgeStore eid).map Edge.uniqueId

/-- Render the edge with identity `eid` (`str(e)` on the object the
relationship call returned). -/
def edgeTextAt (s : State) (eid : Nat) : String :=
  match lookup s.edgeStore eid with
  | none => ""
  | some e => Edge.text s e

/-- Well-formedness of a heap: every identity held anywhere was minted
by the fresh counter, so it is below `nextId`.  Every state produced by
the Python program satisfies this (`uuid4` / object identities never
collide with ones minted later).  Reducible so that `decide` can check
it on concrete states. -/
@[reducible] def WF (s : State) : Prop :=
  (∀ p ∈ s.graphStore, p.1 < s.nextId) ∧
  (∀ p ∈ s.vertexStore, p.1 < s.nextId) ∧
  (∀ p ∈ s.edgeStore, p.1 < s.nextId) ∧
  (∀ p ∈ s.graphStore, ∀ i ∈ p.2.edges, i < s.nextId)

/-- The edge object built by a relationship call from state `s`:
`vertex1 = a`, `vertex2 = b`, a fresh identity. -/
def newEdge (s : State) (a b : Nat) (d : Direction) (w : Value) : Edge :=
  { eid := s.nextId, vertex1 := a, vertex2 := b, direction := d, weight := w }

/-- The state just after a relationship method built (and, for `ledge` /
`redge`, direction-tagged) its edge, before the `save_relationship`
dedup step: the fresh edge is on the heap and the gate is closed. -/
def buildState (s : State) (e : Edge) : State :=
  { s with nextId := s.nextId + 1,
           edgeStore := (s.nextId, e) :: s.edgeStore,
           gateVertex := none }

/-- The state after `save_relationship` adopted the fresh edge into the
edge set of graph `g` (the non-duplicate branch). -/
def insertEdgeState (s : State) (e : Edge) (g : Nat) : State :=
  let gst := setStore s.graphStore g (fun gs => { gs with edges := s.nextId :: gs.edges })
  { buildState s e with graphStore := gst }

/-- The state after `Graph.create_vertex` ran on graph `g`: the fresh
vertex on the heap, the gate closed again, the vertex adopted into
`g.vertices`. -/
def afterCreateVertex (s : State) (g : Nat) (v : Value) : State :=
  { s with nextId := s.nextId + 1,
           vertexStore := (s.nextId, { vid := s.nextId, value := v, graph := g }) :: s.vertexStore,
           gateGraph := none,
           graphStore := setStore s.graphStore g (fun gs => { gs with vertices := s.nextId :: gs.vertices }) }

/-- The induction invariant for the dedup property: a well-formed heap
in which every graph's edge set has pairwise distinct structural keys. -/
def InvKeys (s : State) : Prop :=
  WF s ∧ ∀ g, (graphEdgeKeys s g).Nodup

/-- The public mutating operations of the library, minus `Edge.update`:
everything that builds objects. -/
inductive BOp where
  | newGraph : BOp
  | createVertex : Nat → Value → BOp
  | vedge : Nat → Nat → Value → BOp
  | vledge : Nat → Nat → Value → BOp
  | vredge : Nat → Nat → Value → BOp
  | eedge : Nat → Target → Value → BOp
  | eledge : Nat → Target → Value → BOp
  | eredge : Nat → Target → Value → BOp

/-- Run one public building operation; a raised exception leaves the
world unchanged. -/
def applyB (s : State) (op : BOp) : State :=
  match op with
  | BOp.newGraph => (Graph.new s).2
  | BOp.createVertex g v =>
    match Graph.create_vertex s g v with
    | Except.ok (_, s2) => s2
    | Except.error _ => s
  | BOp.vedge a b w =>
    match Vertex.edge s a b w with
    | Except.ok r => r.state
    | Except.error _ => s
  | BOp.vledge a b w =>
    match Vertex.ledge s a b w with
    | Except.ok r => r.state
    | Except.error _ => s
  | BOp.vredge a b w =>
    match Vertex.redge s a b w with
    | Except.ok r => r.state
    | Except.error _ => s
  | BOp.eedge e t w =>
    match Edge.edge s e t w with
    | Except.ok r => r.state
    | Except.error _ => s
  | BOp.eledge e t w =>
    match Edge.ledge s e t w with
    | Except.ok r => r.state
    | Except.error _ => s
  | BOp.eredge e t w =>
    match Edge.redge s e t w with
    | Except.ok r => r.state
    | Except.error _ => s

/-- Run a sequence of public building operations from a state. -/
def runB (s : State) (ops : List BOp) : State :=
  ops.foldl applyB s

/-- Extract a successful relationship result (the error branch is never
taken in the concrete scenarios below). -/
def okE (r : Except PyError EdgeResult) : EdgeResult :=
  match r with
  | Except.ok a => a
  | Except.error _ => { eid := 0, state := State.empty, warns := [] }

/-- Extract a successful `create_vertex` result (the error branch is
never taken in the concrete scenarios below). -/
def okV (r : Except PyError (Nat × State)) : Nat × State :=
  match r with
  | Except.ok a => a
  | Except.error _ => (0, State.empty)

/-- Concrete scenario, step 1: `g = Graph()` (graph identity 0). -/
def demoS0 : Nat × State := Graph.new State.empty

/-- Step 2: `v1 = g.create_vertex(1)` (vertex identity 1). -/
def demoS1 : Nat × State := okV (Graph.create_vertex demoS0.2 demoS0.1 (Value.vint 1))

/-- Step 3: `v2 = g.create_vertex(2)` (vertex identity 2). -/
def demoS2 : Nat × State := okV (Graph.create_vertex demoS1.2 demoS0.1 (Value.vint 2))

/-- `e = v1.redge(v2, "W")` — the rendering scenario of the spec. -/
def demoRedge : EdgeResult := okE (Vertex.redge demoS2.2 demoS1.1 demoS2.1 (Value.vstr "W"))

/-- A second graph `g2 = Graph()` (identity 3), created after the demo
vertices. -/
def crossG2 : Nat × State := Graph.new demoS2.2

/-- `b = g2.create_vertex(7)` (vertex identity 4, owned by graph 3). -/
def crossB : Nat × State := okV (Graph.create_vertex crossG2.2 crossG2.1 (Value.vint 7))

/-- The cross-graph call `v1.edge(b)` with `v1` in graph 0 and `b` in
graph 3. -/
def crossEdge : EdgeResult := okE (Vertex.edge crossB.2 demoS1.1 crossB.1 Value.vnone)

/-- First `v1.edge(v2, "w")` call of the duplicate scenario. -/
def dupA : EdgeResult := okE (Vertex.edge demoS2.2 demoS1.1 demoS2.1 (Value.vstr "w"))

/-- Second, identical `v1.edge(v2, "w")` call. -/
def dupB : EdgeResult := okE (Vertex.edge dupA.state demoS1.1 demoS2.1 (Value.vstr "w"))

/-- `e1 = v1.edge(v2, "x")`. -/
def mutA : EdgeResult := okE (Vertex.edge demoS2.2 demoS1.1 demoS2.1 (Value.vstr "x"))

/-- `e2 = v1.edge(v2, "y")` — a second stored edge, distinct key. -/
def mutB : EdgeResult := okE (Vertex.edge mutA.state demoS1.1 demoS2.1 (Value.vstr "y"))

/-- `e2("x")` — in-place weight mutation of the second stored edge. -/
def mutS : State := (Edge.update mutB.state mutB.eid (Value.vstr "x")).2

/-! ### Heap lemmas -/

theorem lookup_cons_self {α : Type} (j : Nat) (x : α) (rest : List (Nat × α)) :
    lookup ((j, x) :: rest) j = some x := by
  simp [lookup]

theorem lookup_cons_ne {α : Type} (j : Nat) (x : α) (rest : List (Nat × α))
    (i : Nat) (h : j ≠ i) : lookup ((j, x) :: rest) i = lookup rest i := by
  simp [lookup, h]

theorem mem_of_lookup {α : Type} (st : List (Nat × α)) (i : Nat) (x : α)
    (h : lookup st i = some x) : (i, x) ∈ st := by
  induction st with
  | nil => simp [lookup] at h
  | cons q rest ih =>
    rw [show q = (q.1, q.2) from rfl] at h ⊢
    rw [lookup] at h
    by_cases hq : q.1 = i
    · rw [if_pos hq] at h
      subst hq
      cases h
      exact List.mem_cons_self _ _
    · rw [if_neg hq] at h
      exact List.mem_cons_of_mem _ (ih h)

theorem setStore_cons {α : Type} (k : Nat) (x : α) (rest : List (Nat × α))
    (i : Nat) (f : α → α) :
    setStore ((k, x) :: rest) i f =
      (if k = i then (k, f x) else (k, x)) :: setStore rest i f := rfl

theorem lookup_setStore_self {α : Type} (st : List (Nat × α)) (i : Nat)
    (f : α → α) : lookup (setStore st i f) i = (lookup st i).map f := by
  induction st with
  | nil => rfl
  | cons q rest ih =>
    obtain ⟨k, x⟩ := q
    rw [setStore_cons]
    by_cases hk : k = i
    · rw [if_pos hk]
      subst hk
      simp [lookup]
    · rw [if_neg hk]
      rw [lookup_cons_ne _ _ _ _ hk, lookup_cons_ne _ _ _ _ hk, ih]

theorem lookup_setStore_ne {α : Type} (st : List (Nat × α)) (i : Nat)
    (f : α → α) (j : Nat) (h : i ≠ j) :
    lookup (setStore st i f) j = lookup st j := by
  induction st with
  | nil => rfl
  | cons q rest ih =>
    obtain ⟨k, x⟩ := q
    rw [setStore_cons]
    by_cases hk : k = i
    · rw [if_pos hk]
      subst hk
      rw [lookup_cons_ne _ _ _ _ h, lookup_cons_ne _ _ _ _ h, ih]
    · rw [if_neg hk]
      by_cases hj : k = j
      · subst hj
        rw [lookup_cons_self, lookup_cons_self]
      · rw [lookup_cons_ne _ _ _ _ hj, lookup_cons_ne _ _ _ _ hj, ih]

theorem setStore_of_not_mem {α : Type} (st : List (Nat × α)) (i : Nat)
    (f : α → α) (h : ∀ p ∈ st, p.1 ≠ i) : setStore st i f = st := by
  induction st with
  | nil => rfl
  | cons q rest ih =>
    obtain ⟨k, x⟩ := q
    rw [setStore_cons, if_neg (h (k, x) (List.mem_cons_self _ _))]
    rw [ih (fun p hp => h p (List.mem_cons_of_mem _ hp))]

/-! ### Characterizing the relationship methods -/

theorem createEdge_eq (s : State) (a b : Nat) (w : Value) :
    Vertex.createEdge s a b w =
      Except.ok (s.nextId, buildState s (newEdge s a b Direction.NONE w)) := rfl

theorem vedge_eq (s : State) (a b : Nat) (w : Value) (va : Vertex)
    (hva : lookup s.vertexStore a = some va) :
    Vertex.edge s a b w =
      (let p := save_relationship (buildState s (newEdge s a b Direction.NONE w)) va.graph s.nextId
       Except.ok { eid := s.nextId, state := p.1, warns := p.2 }) := by
  rw [Vertex.edge, hva]
  rfl

theorem vledge_eq (s : State) (a b : Nat) (w : Value) (va : Vertex)
    (hva : lookup s.vertexStore a = some va)
    (hfresh : ∀ p ∈ s.edgeStore, p.1 < s.nextId) :
    Vertex.ledge s a b w =
      (let p := save_relationship (buildState s (newEdge s a b Direction.LEFT w)) va.graph s.nextId
       Except.ok { eid := s.nextId, state := p.1, warns := p.2 }) := by
  have hset : setStore ((s.nextId, newEdge s a b Direction.NONE w) :: s.edgeStore) s.nextId
      (fun e => { e with direction := Direction.LEFT }) =
      (s.nextId, newEdge s a b Direction.LEFT w) :: s.edgeStore := by
    rw [setStore_cons, if_pos rfl,
      setStore_of_not_mem _ _ _ (fun p hp => Nat.ne_of_lt (hfresh p hp))]
    rfl
  rw [Vertex.ledge, hva, createEdge_eq]
  dsimp only [buildState]
  rw [hset]

theorem vredge_eq (s : State) (a b : Nat) (w : Value) (va : Vertex)
    (hva : lookup s.vertexStore a = some va)
    (hfresh : ∀ p ∈ s.edgeStore, p.1 < s.nextId) :
    Vertex.redge s a b w =
      (let p := save_relationship (buildState s (newEdge s a b Direction.RIGHT w)) va.graph s.nextId
       Except.ok { eid := s.nextId, state := p.1, warns := p.2 }) := by
  have hset : setStore ((s.nextId, newEdge s a b Direction.NONE w) :: s.edgeStore) s.nextId
      (fun e => { e with direction := Direction.RIGHT }) =
      (s.nextId, newEdge s a b Direction.RIGHT w) :: s.edgeStore := by
    rw [setStore_cons, if_pos rfl,
      setStore_of_not_mem _ _ _ (fun p hp => Nat.ne_of_lt (hfresh p hp))]
    rfl
  rw [Vertex.redge, hva, createEdge_eq]
  dsimp only [buildState]
  rw [hset]

theorem save_rel_vertexStore (s : State) (g eid : Nat) :
    (save_relationship s g eid).1.vertexStore = s.vertexStore := by
  rw [save_relationship]
  rcases lookup s.edgeStore eid with _ | e
  · rfl
  · dsimp only
    split <;> rfl

theorem save_rel_edgeStore (s : State) (g eid : Nat) :
    (save_relationship s g eid).1.edgeStore = s.edgeStore := by
  rw [save_relationship]
  rcases lookup s.edgeStore eid with _ | e
  · rfl
  · dsimp only
    split <;> rfl

theorem save_rel_nextId (s : State) (g eid : Nat) :
    (save_relationship s g eid).1.nextId = s.nextId := by
  rw [save_relationship]
  rcases lookup s.edgeStore eid with _ | e
  · rfl
  · dsimp only
    split <;> rfl

theorem save_rel_gateGraph (s : State) (g eid : Nat) :
    (save_relationship s g eid).1.gateGraph = s.gateGraph := by
  rw [save_relationship]
  rcases lookup s.edgeStore eid with _ | e
  · rfl
  · dsimp only
    split <;> rfl

theorem save_rel_gateVertex (s : State) (g eid : Nat) :
    (save_relationship s g eid).1.gateVertex = s.gateVertex := by
  rw [save_relationship]
  rcases lookup s.edgeStore eid with _ | e
  · rfl
  · dsimp only
    split <;> rfl

/-! ### Structural-key lists under heap growth -/

theorem mem_setStore {α : Type} (st : List (Nat × α)) (i : Nat) (f : α → α)
    (p : Nat × α) (hp : p ∈ setStore st i f) :
    ∃ q ∈ st, p.1 = q.1 ∧ (p.2 = q.2 ∨ p.2 = f q.2) := by
  rw [setStore] at hp
  obtain ⟨q, hq, hEq⟩ := List.mem_map.mp hp
  by_cases h : q.1 = i
  · rw [if_pos h] at hEq
    exact ⟨q, hq, by rw [← hEq], Or.inr (by rw [← hEq])⟩
  · rw [if_neg h] at hEq
    exact ⟨q, hq, by rw [← hEq], Or.inl (by rw [← hEq])⟩

theorem graphEdgeKeys_buildState (s : State) (e : Edge) (g : Nat)
    (hWF : WF s) : graphEdgeKeys (buildState s e) g = graphEdgeKeys s g := by
  rw [graphEdgeKeys, graphEdgeKeys,
    show (buildState s e).graphStore = s.graphStore from rfl]
  cases h : lookup s.graphStore g with
  | none => rfl
  | some gs =>
    dsimp only
    apply List.filterMap_congr
    intro i hi
    have hlt : i < s.nextId := hWF.2.2.2 (g, gs) (mem_of_lookup _ _ _ h) i hi
    rw [show (buildState s e).edgeStore = (s.nextId, e) :: s.edgeStore from rfl,
      lookup_cons_ne _ _ _ _ (Nat.ne_of_gt hlt)]

theorem save_rel_buildState (s : State) (e : Edge) (g : Nat) (hWF : WF s) :
    save_relationship (buildState s e) g s.nextId =
      if Edge.uniqueId e ∈ graphEdgeKeys s g then (buildState s e, [Warn.duplicateEdge])
      else (insertEdgeState s e g, []) := by
  rw [save_relationship,
    show lookup (buildState s e).edgeStore s.nextId = some e from lookup_cons_self _ _ _]
  dsimp only
  rw [graphEdgeKeys_buildState s e g hWF]
  split <;> rfl

theorem graphEdgeKeys_insert_self (s : State) (e : Edge) (g : Nat) (gs : GraphSt)
    (hWF : WF s) (hgs : lookup s.graphStore g = some gs) :
    graphEdgeKeys (insertEdgeState s e g) g = Edge.uniqueId e :: graphEdgeKeys s g := by
  have hstore : (insertEdgeState s e g).graphStore =
      setStore s.graphStore g (fun gs => { gs with edges := s.nextId :: gs.edges }) := rfl
  have hhead : lookup (insertEdgeState s e g).edgeStore s.nextId = some e :=
    lookup_cons_self _ _ _
  rw [graphEdgeKeys, hstore, lookup_setStore_self, hgs, Option.map_some']
  dsimp only
  rw [List.filterMap_cons, hhead, Option.map_some']
  dsimp only
  rw [graphEdgeKeys, hgs]
  congr 1
  apply List.filterMap_congr
  intro i hi
  have hlt : i < s.nextId := hWF.2.2.2 (g, gs) (mem_of_lookup _ _ _ hgs) i hi
  rw [show (insertEdgeState s e g).edgeStore = (s.nextId, e) :: s.edgeStore from rfl,
    lookup_cons_ne _ _ _ _ (Nat.ne_of_gt hlt)]

theorem graphEdgeKeys_insert_none (s : State) (e : Edge) (g : Nat)
    (hgs : lookup s.graphStore g = none) :
    graphEdgeKeys (insertEdgeState s e g) g = [] := by
  rw [graphEdgeKeys,
    show (insertEdgeState s e g).graphStore =
      setStore s.graphStore g (fun gs => { gs with edges := s.nextId :: gs.edges }) from rfl,
    lookup_setStore_self, hgs]
  rfl

theorem graphEdgeKeys_insert_other (s : State) (e : Edge) (g g2 : Nat)
    (hWF : WF s) (hne : g ≠ g2) :
    graphEdgeKeys (insertEdgeState s e g) g2 = graphEdgeKeys s g2 := by
  rw [graphEdgeKeys, graphEdgeKeys,
    show (insertEdgeState s e g).graphStore =
      setStore s.graphStore g (fun gs => { gs with edges := s.nextId :: gs.edges }) from rfl,
    lookup_setStore_ne _ _ _ _ hne]
  cases h : lookup s.graphStore g2 with
  | none => rfl
  | some gs =>
    dsimp only
    apply List.filterMap_congr
    intro i hi
    have hlt : i < s.nextId := hWF.2.2.2 (g2, gs) (mem_of_lookup _ _ _ h) i hi
    rw [show (insertEdgeState s e g).edgeStore = (s.nextId, e) :: s.edgeStore from rfl,
      lookup_cons_ne _ _ _ _ (Nat.ne_of_gt hlt)]

/-! ### Well-formedness preservation -/

theorem WF_buildState (s : State) (e : Edge) (hWF : WF s) : WF (buildState s e) := by
  obtain ⟨hg, hv, he, hl⟩ := hWF
  refine ⟨?_, ?_, ?_, ?_⟩
  · exact fun p hp => Nat.lt_succ_of_lt (hg p hp)
  · exact fun p hp => Nat.lt_succ_of_lt (hv p hp)
  · intro p hp
    rcases List.mem_cons.mp hp with h | h
    · rw [h]
      exact Nat.lt_succ_self _
    · exact Nat.lt_succ_of_lt (he p h)
  · exact fun p hp i hi => Nat.lt_succ_of_lt (hl p hp i hi)

theorem WF_insertEdgeState (s : State) (e : Edge) (g : Nat) (hWF : WF s) :
    WF (insertEdgeState s e g) := by
  obtain ⟨hg, hv, he, hl⟩ := hWF
  have hstore : (insertEdgeState s e g).graphStore =
      setStore s.graphStore g (fun gs => { gs with edges := s.nextId :: gs.edges }) := rfl
  refine ⟨?_, ?_, ?_, ?_⟩
  · intro p hp
    rw [hstore] at hp
    obtain ⟨q, hq, hEq, _⟩ := mem_setStore _ _ _ p hp
    rw [hEq]
    exact Nat.lt_succ_of_lt (hg q hq)
  · exact fun p hp => Nat.lt_succ_of_lt (hv p hp)
  · intro p hp
    rcases List.mem_cons.mp hp with h | h
    · rw [h]
      exact Nat.lt_succ_self _
    · exact Nat.lt_succ_of_lt (he p h)
  · intro p hp i hi
    rw [hstore] at hp
    obtain ⟨q, hq, _, hc⟩ := mem_setStore _ _ _ p hp
    rcases hc with hc | hc
    · rw [hc] at hi
      exact Nat.lt_succ_of_lt (hl q hq i hi)
    · rw [hc] at hi
      dsimp only at hi
      rcases List.mem_cons.mp hi with h | h
      · rw [h]
        exact Nat.lt_succ_self _
      · exact Nat.lt_succ_of_lt (hl q hq i h)

theorem WF_afterCreateVertex (s : State) (g : Nat) (v : Value) (hWF : WF s) :
    WF (afterCreateVertex s g v) := by
  obtain ⟨hg, hv, he, hl⟩ := hWF
  have hstore : (afterCreateVertex s g v).graphStore =
      setStore s.graphStore g (fun gs => { gs with vertices := s.nextId :: gs.vertices }) := rfl
  refine ⟨?_, ?_, ?_, ?_⟩
  · intro p hp
    rw [hstore] at hp
    obtain ⟨q, hq, hEq, _⟩ := mem_setStore _ _ _ p hp
    rw [hEq]
    exact Nat.lt_succ_of_lt (hg q hq)
  · intro p hp
    rcases List.mem_cons.mp hp with h | h
    · rw [h]
      exact Nat.lt_succ_self _
    · exact Nat.lt_succ_of_lt (hv p h)
  · exact fun p hp => Nat.lt_succ_of_lt (he p hp)
  · intro p hp i hi
    rw [hstore] at hp
    obtain ⟨q, hq, _, hc⟩ := mem_setStore _ _ _ p hp
    rcases hc with hc | hc
    · rw [hc] at hi
      exact Nat.lt_succ_of_lt (hl q hq i hi)
    · rw [hc] at hi
      dsimp only at hi
      exact Nat.lt_succ_of_lt (hl q hq i hi)

theorem create_vertex_eq (s : State) (g : Nat) (v : Value) :
    Graph.create_vertex s g v = Except.ok (s.nextId, afterCreateVertex s g v) := rfl

theorem graphEdgeKeys_afterCreateVertex (s : State) (g : Nat) (v : Value) (g2 : Nat) :
    graphEdgeKeys (afterCreateVertex s g v) g2 = graphEdgeKeys s g2 := by
  have hstore : (afterCreateVertex s g v).graphStore =
      setStore s.graphStore g (fun gs => { gs with vertices := s.nextId :: gs.vertices }) := rfl
  rw [graphEdgeKeys, graphEdgeKeys, hstore]
  by_cases h : g = g2
  · subst h
    rw [lookup_setStore_self]
    cases hgs : lookup s.graphStore g with
    | none => rfl
    | some gs =>
      rw [Option.map_some']
      rfl
  · rw [lookup_setStore_ne _ _ _ _ h]
    cases lookup s.graphStore g2 <;> rfl

theorem graphEdgeKeys_graph_new_ne (s : State) (g2 : Nat) (h : s.nextId ≠ g2) :
    graphEdgeKeys (Graph.new s).2 g2 = graphEdgeKeys s g2 := by
  rw [graphEdgeKeys, graphEdgeKeys,
    show (Graph.new s).2.graphStore =
      (s.nextId, { vertices := [], edges := [] }) :: s.graphStore from rfl,
    lookup_cons_ne _ _ _ _ h]
  cases lookup s.graphStore g2 <;> rfl

theorem graphEdgeKeys_graph_new_self (s : State) :
    graphEdgeKeys (Graph.new s).2 s.nextId = [] := by
  rw [graphEdgeKeys,
    show (Graph.new s).2.graphStore =
      (s.nextId, { vertices := [], edges := [] }) :: s.graphStore from rfl,
    lookup_cons_self]
  rfl

theorem WF_graph_new (s : State) (hWF : WF s) : WF (Graph.new s).2 := by
  obtain ⟨hg, hv, he, hl⟩ := hWF
  refine ⟨?_, ?_, ?_, ?_⟩
  · intro p hp
    rcases List.mem_cons.mp hp with h | h
    · rw [h]
      exact Nat.lt_succ_self _
    · exact Nat.lt_succ_of_lt (hg p h)
  · exact fun p hp => Nat.lt_succ_of_lt (hv p hp)
  · exact fun p hp => Nat.lt_succ_of_lt (he p hp)
  · intro p hp i hi
    rcases List.mem_cons.mp hp with h | h
    · rw [h] at hi
      simp at hi
    · exact Nat.lt_succ_of_lt (hl p h i hi)

/-! ### The dedup invariant is preserved by every building operation -/

theorem InvKeys_empty : InvKeys State.empty :=
  ⟨⟨fun p hp => absurd hp (List.not_mem_nil p),
    fun p hp => absurd hp (List.not_mem_nil p),
    fun p hp => absurd hp (List.not_mem_nil p),
    fun p hp => absurd hp (List.not_mem_nil p)⟩,
   fun _ => List.nodup_nil⟩

theorem InvKeys_graph_new (s : State) (h : InvKeys s) : InvKeys (Graph.new s).2 := by
  refine ⟨WF_graph_new s h.1, fun g => ?_⟩
  by_cases hg : s.nextId = g
  · subst hg
    rw [graphEdgeKeys_graph_new_self]
    exact List.nodup_nil
  · rw [graphEdgeKeys_graph_new_ne s g hg]
    exact h.2 g

theorem InvKeys_create_vertex (s : State) (g : Nat) (v : Value) (h : InvKeys s) :
    InvKeys (afterCreateVertex s g v) := by
  refine ⟨WF_afterCreateVertex s g v h.1, fun g2 => ?_⟩
  rw [graphEdgeKeys_afterCreateVertex]
  exact h.2 g2

theorem InvKeys_save_build (s : State) (e : Edge) (g : Nat) (h : InvKeys s) :
    InvKeys (save_relationship (buildState s e) g s.nextId).1 := by
  rw [save_rel_buildState s e g h.1]
  by_cases hmem : Edge.uniqueId e ∈ graphEdgeKeys s g
  · rw [if_pos hmem]
    exact ⟨WF_buildState s e h.1,
      fun g2 => by rw [graphEdgeKeys_buildState s e g2 h.1]; exact h.2 g2⟩
  · rw [if_neg hmem]
    refine ⟨WF_insertEdgeState s e g h.1, fun g2 => ?_⟩
    by_cases hg : g = g2
    · subst hg
      cases hgs : lookup s.graphStore g with
      | none =>
        rw [graphEdgeKeys_insert_none s e g hgs]
        exact List.nodup_nil
      | some gs =>
        rw [graphEdgeKeys_insert_self s e g gs h.1 hgs]
        exact List.nodup_cons.mpr ⟨hmem, h.2 g⟩
    · rw [graphEdgeKeys_insert_other s e g g2 h.1 hg]
      exact h.2 g2

theorem InvKeys_vedge (s : State) (a b : Nat) (w : Value) (h : InvKeys s)
    (r : EdgeResult) (hr : Vertex.edge s a b w = Except.ok r) :
    InvKeys r.state := by
  cases hva : lookup s.vertexStore a with
  | none =>
    rw [Vertex.edge, hva] at hr
    simp at hr
  | some va =>
    rw [vedge_eq s a b w va hva] at hr
    dsimp only at hr
    injection hr with hr
    rw [← hr]
    exact InvKeys_save_build s (newEdge s a b Direction.NONE w) va.graph h

theorem InvKeys_vledge (s : State) (a b : Nat) (w : Value) (h : InvKeys s)
    (r : EdgeResult) (hr : Vertex.ledge s a b w = Except.ok r) :
    InvKeys r.state := by
  cases hva : lookup s.vertexStore a with
  | none =>
    rw [Vertex.ledge, hva] at hr
    simp at hr
  | some va =>
    rw [vledge_eq s a b w va hva h.1.2.2.1] at hr
    dsimp only at hr
    injection hr with hr
    rw [← hr]
    exact InvKeys_save_build s (newEdge s a b Direction.LEFT w) va.graph h

theorem InvKeys_vredge (s : State) (a b : Nat) (w : Value) (h : InvKeys s)
    (r : EdgeResult) (hr : Vertex.redge s a b w = Except.ok r) :
    InvKeys r.state := by
  cases hva : lookup s.vertexStore a with
  | none =>
    rw [Vertex.redge, hva] at hr
    simp at hr
  | some va =>
    rw [vredge_eq s a b w va hva h.1.2.2.1] at hr
    dsimp only at hr
    injection hr with hr
    rw [← hr]
    exact InvKeys_save_build s (newEdge s a b Direction.RIGHT w) va.graph h

theorem eedge_none (s : State) (e : Nat) (t : Target) (w : Value)
    (hed : lookup s.edgeStore e = none) :
    Edge.edge s e t w = Except.error PyError.attributeError := by
  rw [Edge.edge, hed]

theorem eedge_v_eq (s : State) (e vid : Nat) (w : Value) (ed : Edge)
    (hed : lookup s.edgeStore e = some ed) :
    Edge.edge s e (Target.v vid) w = Vertex.edge s ed.vertex2 vid w := by
  rw [Edge.edge, hed]

theorem eedge_e_eq (s : State) (e oid : Nat) (w : Value) (ed : Edge)
    (hed : lookup s.edgeStore e = some ed) :
    Edge.edge s e (Target.e oid) w =
      (match lookup s.edgeStore oid with
       | none => Except.error PyError.attributeError
       | some oed => Vertex.edge s ed.vertex2 oed.vertex1 w) := by
  rw [Edge.edge, hed]

theorem eledge_none (s : State) (e : Nat) (t : Target) (w : Value)
    (hed : lookup s.edgeStore e = none) :
    Edge.ledge s e t w = Except.error PyError.attributeError := by
  rw [Edge.ledge, hed]

theorem eledge_v_eq (s : State) (e vid : Nat) (w : Value) (ed : Edge)
    (hed : lookup s.edgeStore e = some ed) :
    Edge.ledge s e (Target.v vid) w = Vertex.ledge s ed.vertex2 vid w := by
  rw [Edge.ledge, hed]

theorem eledge_e_eq (s : State) (e oid : Nat) (w : Value) (ed : Edge)
    (hed : lookup s.edgeStore e = some ed) :
    Edge.ledge s e (Target.e oid) w =
      (match lookup s.edgeStore oid with
       | none => Except.error PyError.attributeError
       | some oed => Vertex.ledge s ed.vertex2 oed.vertex1 w) := by
  rw [Edge.ledge, hed]

theorem eredge_none (s : State) (e : Nat) (t : Target) (w : Value)
    (hed : lookup s.edgeStore e = none) :
    Edge.redge s e t w = Except.error PyError.attributeError := by
  rw [Edge.redge, hed]

theorem eredge_v_eq (s : State) (e vid : Nat) (w : Value) (ed : Edge)
    (hed : lookup s.edgeStore e = some ed) :
    Edge.redge s e (Target.v vid) w = Except.error PyError.attributeError := by
  rw [Edge.redge, hed]

theorem eredge_e_eq (s : State) (e oid : Nat) (w : Value) (ed : Edge)
    (hed : lookup s.edgeStore e = some ed) :
    Edge.redge s e (Target.e oid) w =
      (match lookup s.edgeStore oid with
       | none => Except.error PyError.attributeError
       | some oed => Vertex.redge s ed.vertex2 oed.vertex1 w) := by
  rw [Edge.redge, hed]

theorem InvKeys_eedge (s : State) (e : Nat) (t : Target) (w : Value) (h : InvKeys s)
    (r : EdgeResult) (hr : Edge.edge s e t w = Except.ok r) :
    InvKeys r.state := by
  cases hed : lookup s.edgeStore e with
  | none =>
    rw [eedge_none s e t w hed] at hr
    simp at hr
  | some ed =>
    cases t with
    | v vid =>
      rw [eedge_v_eq s e vid w ed hed] at hr
      exact InvKeys_vedge s ed.vertex2 vid w h r hr
    | e oid =>
      rw [eedge_e_eq s e oid w ed hed] at hr
      cases hoed : lookup s.edgeStore oid with
      | none =>
        rw [hoed] at hr
        simp at hr
      | some oed =>
        rw [hoed] at hr
        exact InvKeys_vedge s ed.vertex2 oed.vertex1 w h r hr

theorem InvKeys_eledge (s : State) (e : Nat) (t : Target) (w : Value) (h : InvKeys s)
    (r : EdgeResult) (hr : Edge.ledge s e t w = Except.ok r) :
    InvKeys r.state := by
  cases hed : lookup s.edgeStore e with
  | none =>
    rw [eledge_none s e t w hed] at hr
    simp at hr
  | some ed =>
    cases t with
    | v vid =>
      rw [eledge_v_eq s e vid w ed hed] at hr
      exact InvKeys_vledge s ed.vertex2 vid w h r hr
    | e oid =>
      rw [eledge_e_eq s e oid w ed hed] at hr
      cases hoed : lookup s.edgeStore oid with
      | none =>
        rw [hoed] at hr
        simp at hr
      | some oed =>
        rw [hoed] at hr
        exact InvKeys_vledge s ed.vertex2 oed.vertex1 w h r hr

theorem InvKeys_eredge (s : State) (e : Nat) (t : Target) (w : Value) (h : InvKeys s)
    (r : EdgeResult) (hr : Edge.redge s e t w = Except.ok r) :
    InvKeys r.state := by
  cases hed : lookup s.edgeStore e with
  | none =>
    rw [eredge_none s e t w hed] at hr
    simp at hr
  | some ed =>
    cases t with
    | v vid =>
      rw [eredge_v_eq s e vid w ed hed] at hr
      simp at hr
    | e oid =>
      rw [eredge_e_eq s e oid w ed hed] at hr
      cases hoed : lookup s.edgeStore oid with
      | none =>
        rw [hoed] at hr
        simp at hr
      | some oed =>
        rw [hoed] at hr
        exact InvKeys_vredge s ed.vertex2 oed.vertex1 w h r hr

theorem InvKeys_applyB (s : State) (op : BOp) (h : InvKeys s) :
    InvKeys (applyB s op) := by
  cases op with
  | newGraph => exact InvKeys_graph_new s h
  | createVertex g v =>
    dsimp only [applyB]
    rw [create_vertex_eq]
    exact InvKeys_create_vertex s g v h
  | vedge a b w =>
    dsimp only [applyB]
    cases hres : Vertex.edge s a b w with
    | error e => exact h
    | ok r => exact InvKeys_vedge s a b w h r hres
  | vledge a b w =>
    dsimp only [applyB]
    cases hres : Vertex.ledge s a b w with
    | error e => exact h
    | ok r => exact InvKeys_vledge s a b w h r hres
  | vredge a b w =>
    dsimp only [applyB]
    cases hres : Vertex.redge s a b w with
    | error e => exact h
    | ok r => exact InvKeys_vredge s a b w h r hres
  | eedge e t w =>
    dsimp only [applyB]
    cases hres : Edge.edge s e t w with
    | error er => exact h
    | ok r => exact InvKeys_eedge s e t w h r hres
  | eledge e t w =>
    dsimp only [applyB]
    cases hres : Edge.ledge s e t w with
    | error er => exact h
    | ok r => exact InvKeys_eledge s e t w h r hres
  | eredge e t w =>
    dsimp only [applyB]
    cases hres : Edge.redge s e t w with
    | error er => exact h
    | ok r => exact InvKeys_eredge s e t w h r hres

theorem InvKeys_runB (s : State) (ops : List BOp) (h : InvKeys s) :
    InvKeys (runB s ops) := by
  induction ops generalizing s with
  | nil => exact h
  | cons op rest ih => exact ih (applyB s op) (InvKeys_applyB s op h)

theorem save_rel_warns (s : State) (g eid : Nat) :
    Warn.crossGraphClone ∉ (save_relationship s g eid).2 := by
  rw [save_relationship]
  rcases lookup s.edgeStore eid with _ | e
  · simp
  · dsimp only
    split <;> simp

/-! ### Claim theorems -/

/-- C1 counterexample: with `v1` (identity 1) in graph 0 and `b`
(identity 4, value 7) in graph 3, `v1.edge(b)` succeeds but raises no
warning at all (so no `CrossGraphCloneWarning`), and the resulting edge
keeps `b` itself — still owned by graph 3 — as its second endpoint, so
the two endpoints do not both report graph 0. -/
theorem cross_graph_call_counterexample :
    Vertex.edge crossB.2 demoS1.1 crossB.1 Value.vnone = Except.ok crossEdge ∧
    crossEdge.warns = [] ∧
    lookup crossEdge.state.edgeStore crossEdge.eid =
      some { eid := 5, vertex1 := 1, vertex2 := 4,
             direction := Direction.NONE, weight := Value.vnone } ∧
    lookup crossEdge.state.vertexStore 4 =
      some { vid := 4, value := Value.vint 7, graph := 3 } ∧
    lookup crossEdge.state.vertexStore 1 =
      some { vid := 1, value := Value.vint 1, graph := 0 } ∧
    (3 : Nat) ≠ 0 :=
  ⟨rfl, rfl, rfl, rfl, rfl, by decide⟩

/-- C1 (amended): for `a` in graph `g1` and `b` in graph `g2 ≠ g1`,
`a.edge(b)` (and `ledge` / `redge`) does not fail, but no clone is made
and no `CrossGraphCloneWarning` is raised: the edge is built with the
caller's original `b` itself as `vertex2` (so that endpoint still
reports graph `g2`), and the vertex heap is left untouched. -/
theorem cross_graph_no_clone_no_warning (s : State) (a b g1 g2 : Nat) (w : Value)
    (va vb : Vertex) (hWF : WF s)
    (hva : lookup s.vertexStore a = some va) (hga : va.graph = g1)
    (hvb : lookup s.vertexStore b = some vb) (hgb : vb.graph = g2)
    (hne : g1 ≠ g2) :
    vb.graph = g2 ∧
    (∃ r, Vertex.edge s a b w = Except.ok r ∧
       Warn.crossGraphClone ∉ r.warns ∧
       r.state.vertexStore = s.vertexStore ∧
       lookup r.state.vertexStore b = some vb ∧
       lookup r.state.edgeStore r.eid =
         some { eid := r.eid, vertex1 := a, vertex2 := b,
                direction := Direction.NONE, weight := w }) ∧
    (∃ r, Vertex.ledge s a b w = Except.ok r ∧
       Warn.crossGraphClone ∉ r.warns ∧
       r.state.vertexStore = s.vertexStore ∧
       lookup r.state.vertexStore b = some vb ∧
       lookup r.state.edgeStore r.eid =
         some { eid := r.eid, vertex1 := a, vertex2 := b,
                direction := Direction.LEFT, weight := w }) ∧
    (∃ r, Vertex.redge s a b w = Except.ok r ∧
       Warn.crossGraphClone ∉ r.warns ∧
       r.state.vertexStore = s.vertexStore ∧
       lookup r.state.vertexStore b = some vb ∧
       lookup r.state.edgeStore r.eid =
         some { eid := r.eid, vertex1 := a, vertex2 := b,
                direction := Direction.RIGHT, weight := w }) := by
  refine ⟨hgb, ?_, ?_, ?_⟩
  · rw [vedge_eq s a b w va hva]
    dsimp only
    refine ⟨_, rfl, save_rel_warns _ _ _, ?_, ?_, ?_⟩
    · rw [save_rel_vertexStore]
      rfl
    · rw [save_rel_vertexStore]
      exact hvb
    · rw [save_rel_edgeStore]
      exact lookup_cons_self _ _ _
  · rw [vledge_eq s a b w va hva hWF.2.2.1]
    dsimp only
    refine ⟨_, rfl, save_rel_warns _ _ _, ?_, ?_, ?_⟩
    · rw [save_rel_vertexStore]
      rfl
    · rw [save_rel_vertexStore]
      exact hvb
    · rw [save_rel_edgeStore]
      exact lookup_cons_self _ _ _
  · rw [vredge_eq s a b w va hva hWF.2.2.1]
    dsimp only
    refine ⟨_, rfl, save_rel_warns _ _ _, ?_, ?_, ?_⟩
    · rw [save_rel_vertexStore]
      rfl
    · rw [save_rel_vertexStore]
      exact hvb
    · rw [save_rel_edgeStore]
      exact lookup_cons_self _ _ _

/-- C1 witness: the amended theorem applied to the concrete cross-graph
scenario (`v1` in graph 0, `b` in graph 3). -/
theorem cross_graph_no_clone_no_warning_witness :
    (0 : Nat) ≠ 3 ∧
    (∃ r, Vertex.edge crossB.2 demoS1.1 crossB.1 Value.vnone = Except.ok r ∧
       Warn.crossGraphClone ∉ r.warns ∧
       r.state.vertexStore = crossB.2.vertexStore ∧
       lookup r.state.vertexStore crossB.1 =
         some { vid := 4, value := Value.vint 7, graph := 3 } ∧
       lookup r.state.edgeStore r.eid =
         some { eid := r.eid, vertex1 := demoS1.1, vertex2 := crossB.1,
                direction := Direction.NONE, weight := Value.vnone }) :=
  ⟨by decide,
   (cross_graph_no_clone_no_warning crossB.2 demoS1.1 crossB.1 0 3 Value.vnone
     { vid := 1, value := Value.vint 1, graph := 0 }
     { vid := 4, value := Value.vint 7, graph := 3 }
     (by decide) (by decide) rfl (by decide) rfl (by decide)).2.1⟩

/-- C2: for `a`, `b` with `a` in graph `g`, a second `a.edge(b, w)` call
identical to the first raises the duplicate warning, leaves `g.edges`
exactly as it was after the first call, and still returns a freshly
built edge (a different identity from the first call's edge). -/
theorem duplicate_edge_second_call (s : State) (a b : Nat) (w : Value)
    (va : Vertex) (gs : GraphSt) (hWF : WF s)
    (hva : lookup s.vertexStore a = some va)
    (hgs : lookup s.graphStore va.graph = some gs)
    (r1 r2 : EdgeResult)
    (h1 : Vertex.edge s a b w = Except.ok r1)
    (h2 : Vertex.edge r1.state a b w = Except.ok r2) :
    Warn.duplicateEdge ∈ r2.warns ∧
    graphEdges r2.state va.graph = graphEdges r1.state va.graph ∧
    r2.eid ≠ r1.eid := by
  rw [vedge_eq s a b w va hva] at h1
  dsimp only at h1
  rw [save_rel_buildState s (newEdge s a b Direction.NONE w) va.graph hWF] at h1
  by_cases hmem1 : Edge.uniqueId (newEdge s a b Direction.NONE w) ∈ graphEdgeKeys s va.graph
  · rw [if_pos hmem1] at h1
    injection h1 with h1
    have hWF1 : WF r1.state := by
      rw [← h1]
      exact WF_buildState s _ hWF
    have hva1 : lookup r1.state.vertexStore a = some va := by
      rw [← h1]
      exact hva
    rw [vedge_eq r1.state a b w va hva1] at h2
    dsimp only at h2
    rw [save_rel_buildState r1.state (newEdge r1.state a b Direction.NONE w) va.graph hWF1] at h2
    have hmem2 : Edge.uniqueId (newEdge r1.state a b Direction.NONE w) ∈
        graphEdgeKeys r1.state va.graph := by
      have huid : Edge.uniqueId (newEdge r1.state a b Direction.NONE w) =
          Edge.uniqueId (newEdge s a b Direction.NONE w) := rfl
      rw [huid, ← h1, graphEdgeKeys_buildState s _ va.graph hWF]
      exact hmem1
    rw [if_pos hmem2] at h2
    injection h2 with h2
    refine ⟨?_, ?_, ?_⟩
    · rw [← h2]
      simp
    · rw [← h2]
      rfl
    · rw [← h2, ← h1]
      exact Nat.succ_ne_self s.nextId
  · rw [if_neg hmem1] at h1
    injection h1 with h1
    have hWF1 : WF r1.state := by
      rw [← h1]
      exact WF_insertEdgeState s _ va.graph hWF
    have hva1 : lookup r1.state.vertexStore a = some va := by
      rw [← h1]
      exact hva
    rw [vedge_eq r1.state a b w va hva1] at h2
    dsimp only at h2
    rw [save_rel_buildState r1.state (newEdge r1.state a b Direction.NONE w) va.graph hWF1] at h2
    have hmem2 : Edge.uniqueId (newEdge r1.state a b Direction.NONE w) ∈
        graphEdgeKeys r1.state va.graph := by
      have huid : Edge.uniqueId (newEdge r1.state a b Direction.NONE w) =
          Edge.uniqueId (newEdge s a b Direction.NONE w) := rfl
      rw [huid, ← h1, graphEdgeKeys_insert_self s _ va.graph gs hWF hgs]
      exact List.mem_cons_self _ _
    rw [if_pos hmem2] at h2
    injection h2 with h2
    refine ⟨?_, ?_, ?_⟩
    · rw [← h2]
      simp
    · rw [← h2]
      rfl
    · rw [← h2, ← h1]
      exact Nat.succ_ne_self s.nextId

/-- C2 witness: the duplicate-call theorem applied to the concrete
scenario `v1.edge(v2, "w"); v1.edge(v2, "w")` in graph 0. -/
theorem duplicate_edge_second_call_witness :
    Warn.duplicateEdge ∈ dupB.warns ∧
    graphEdges dupB.state 0 = graphEdges dupA.state 0 ∧
    dupB.eid ≠ dupA.eid :=
  duplicate_edge_second_call demoS2.2 demoS1.1 demoS2.1 (Value.vstr "w")
    { vid := 1, value := Value.vint 1, graph := 0 }
    { vertices := [2, 1], edges := [] }
    (by decide) (by decide) (by decide) dupA dupB rfl rfl

/-- C3: with both gates closed, direct `Vertex(...)` and `Edge(...)`
construction fail with the gate error; after `Graph.create_vertex`
returned, the Vertex gate is cleared again so a direct construction
still fails; and after any of `edge` / `ledge` / `redge` returned, the
Edge gate is cleared so a direct Edge construction still fails. -/
theorem construction_gate_enforced (s : State) (v w : Value) (g a b : Nat)
    (r rl rr : EdgeResult) (vid : Nat) (s2 : State)
    (hgG : s.gateGraph = none) (hgV : s.gateVertex = none)
    (hcv : Graph.create_vertex s g v = Except.ok (vid, s2))
    (hve : Vertex.edge s a b w = Except.ok r)
    (hvl : Vertex.ledge s a b w = Except.ok rl)
    (hvr : Vertex.redge s a b w = Except.ok rr) :
    Vertex.make s v g = Except.error PyError.graphError ∧
    Edge.make s w a b = Except.error PyError.graphError ∧
    s2.gateGraph = none ∧
    Vertex.make s2 v g = Except.error PyError.graphError ∧
    r.state.gateVertex = none ∧
    Edge.make r.state w a b = Except.error PyError.graphError ∧
    rl.state.gateVertex = none ∧
    Edge.make rl.state w a b = Except.error PyError.graphError ∧
    rr.state.gateVertex = none ∧
    Edge.make rr.state w a b = Except.error PyError.graphError := by
  have hmkG : ∀ t : State, t.gateGraph = none →
      Vertex.make t v g = Except.error PyError.graphError := by
    intro t ht
    rw [Vertex.make, ht]
  have hmkV : ∀ t : State, t.gateVertex = none →
      Edge.make t w a b = Except.error PyError.graphError := by
    intro t ht
    rw [Edge.make, ht]
  rw [create_vertex_eq] at hcv
  injection hcv with hcv
  injection hcv with hcv1 hcv2
  have hs2 : s2.gateGraph = none := by
    rw [← hcv2]
    rfl
  have hr : r.state.gateVertex = none := by
    cases hva : lookup s.vertexStore a with
    | none =>
      rw [Vertex.edge, hva] at hve
      simp at hve
    | some va =>
      rw [vedge_eq s a b w va hva] at hve
      dsimp only at hve
      injection hve with hve
      rw [← hve, save_rel_gateVertex]
      rfl
  have hrl : rl.state.gateVertex = none := by
    cases hva : lookup s.vertexStore a with
    | none =>
      rw [Vertex.ledge, hva] at hvl
      simp at hvl
    | some va =>
      rw [Vertex.ledge, hva, createEdge_eq] at hvl
      dsimp only at hvl
      injection hvl with hvl
      rw [← hvl, save_rel_gateVertex]
      rfl
  have hrr : rr.state.gateVertex = none := by
    cases hva : lookup s.vertexStore a with
    | none =>
      rw [Vertex.redge, hva] at hvr
      simp at hvr
    | some va =>
      rw [Vertex.redge, hva, createEdge_eq] at hvr
      dsimp only at hvr
      injection hvr with hvr
      rw [← hvr, save_rel_gateVertex]
      rfl
  exact ⟨hmkG s hgG, hmkV s hgV, hs2, hmkG s2 hs2, hr, hmkV r.state hr,
    hrl, hmkV rl.state hrl, hrr, hmkV rr.state hrr⟩

/-- C3 witness: the gate theorem applied to the concrete state after
building graph 0 with vertices 1 and 2, where both gates are closed. -/
theorem construction_gate_enforced_witness :
    demoS2.2.gateGraph = none ∧
    Vertex.make demoS2.2 (Value.vint 9) demoS0.1 = Except.error PyError.graphError :=
  ⟨by decide,
   (construction_gate_enforced demoS2.2 (Value.vint 9) Value.vnone demoS0.1 demoS1.1 demoS2.1
     (okE (Vertex.edge demoS2.2 demoS1.1 demoS2.1 Value.vnone))
     (okE (Vertex.ledge demoS2.2 demoS1.1 demoS2.1 Value.vnone))
     (okE (Vertex.redge demoS2.2 demoS1.1 demoS2.1 Value.vnone))
     (okV (Graph.create_vertex demoS2.2 demoS0.1 (Value.vint 9))).1
     (okV (Graph.create_vertex demoS2.2 demoS0.1 (Value.vint 9))).2
     (by decide) (by decide) rfl rfl rfl rfl).1⟩

/-- C4 counterexample: after `e1 = v1.edge(v2, "x")`,
`e2 = v1.edge(v2, "y")` (both stored), mutating `e2("x")` leaves graph
0 holding two distinct stored edges with equal structural keys, so the
claimed invariant is not preserved by post-insertion weight mutation. -/
theorem edge_keys_mutation_counterexample :
    mutA.eid ∈ graphEdges mutS demoS0.1 ∧
    mutB.eid ∈ graphEdges mutS demoS0.1 ∧
    mutA.eid ≠ mutB.eid ∧
    edgeKeyAt mutS mutA.eid = edgeKeyAt mutS mutB.eid ∧
    ¬ (graphEdgeKeys mutS demoS0.1).Nodup := by
  decide

/-- C4 (amended): along every sequence of the building operations
(`Graph()`, `create_vertex`, the `edge` / `ledge` / `redge` relationship
methods and their Edge chain forms — everything except `update`), every
graph's stored edge set has pairwise distinct structural keys. -/
theorem build_ops_edge_keys_nodup (ops : List BOp) (g : Nat) :
    (graphEdgeKeys (runB State.empty ops) g).Nodup :=
  (InvKeys_runB State.empty ops InvKeys_empty).2 g

/-- C5: evaluating the code at the failing input — for the concrete edge
`e = v1.redge(v2, "W")` and the bare vertex `v1`, the chain call
`e.redge(v1)` raises `AttributeError` (source line 142 invokes the
nonexistent `Vertex.rledge`), while the delegation target the claim
describes, `e.vertex2.redge(v1)`, succeeds. -/
theorem edge_redge_vertex_target_attribute_error :
    Edge.redge demoRedge.state demoRedge.eid (Target.v demoS1.1) Value.vnone =
      Except.error PyError.attributeError ∧
    (∃ r, Vertex.redge demoRedge.state demoS2.1 demoS1.1 Value.vnone = Except.ok r) :=
  ⟨rfl, ⟨okE (Vertex.redge demoRedge.state demoS2.1 demoS1.1 Value.vnone), rfl⟩⟩

/-- C6: `create_vertex` always succeeds and yields a vertex owned by the
target graph, with an identity distinct from every vertex on the heap,
and the new vertex is a member of the graph's `vertices` set. -/
theorem create_vertex_spec (s : State) (g : Nat) (v : Value) (gs : GraphSt)
    (hWF : WF s) (hgs : lookup s.graphStore g = some gs) :
    ∃ vid s2, Graph.create_vertex s g v = Except.ok (vid, s2) ∧
      lookup s2.vertexStore vid = some { vid := vid, value := v, graph := g } ∧
      (∀ p ∈ s.vertexStore, p.1 ≠ vid) ∧
      vid ∈ graphVertices s2 g := by
  refine ⟨s.nextId, afterCreateVertex s g v, create_vertex_eq s g v, ?_, ?_, ?_⟩
  · exact lookup_cons_self _ _ _
  · exact fun p hp => Nat.ne_of_lt (hWF.2.1 p hp)
  · rw [graphVertices,
      show (afterCreateVertex s g v).graphStore =
        setStore s.graphStore g (fun gs => { gs with vertices := s.nextId :: gs.vertices }) from rfl,
      lookup_setStore_self, hgs, Option.map_some']
    exact List.mem_cons_self _ _

/-- C6 witness: the `create_vertex` theorem applied to graph 0 after one
vertex was already minted. -/
theorem create_vertex_spec_witness :
    ∃ vid s2, Graph.create_vertex demoS1.2 demoS0.1 (Value.vint 2) = Except.ok (vid, s2) ∧
      lookup s2.vertexStore vid = some { vid := vid, value := Value.vint 2, graph := demoS0.1 } ∧
      (∀ p ∈ demoS1.2.vertexStore, p.1 ≠ vid) ∧
      vid ∈ graphVertices s2 demoS0.1 :=
  create_vertex_spec demoS1.2 demoS0.1 (Value.vint 2)
    { vertices := [1], edges := [] } (by decide) (by decide)

/-- C7: `a.edge(b, w)` builds an edge with `vertex1 = a`, `vertex2 = b`
and `direction = NONE`; `a.ledge` the same with `LEFT`; `a.redge` the
same with `RIGHT`. -/
theorem edge_direction_endpoints (s : State) (a b : Nat) (w : Value) (va : Vertex)
    (hWF : WF s) (hva : lookup s.vertexStore a = some va) :
    (∃ r, Vertex.edge s a b w = Except.ok r ∧
       lookup r.state.edgeStore r.eid =
         some { eid := r.eid, vertex1 := a, vertex2 := b,
                direction := Direction.NONE, weight := w }) ∧
    (∃ r, Vertex.ledge s a b w = Except.ok r ∧
       lookup r.state.edgeStore r.eid =
         some { eid := r.eid, vertex1 := a, vertex2 := b,
                direction := Direction.LEFT, weight := w }) ∧
    (∃ r, Vertex.redge s a b w = Except.ok r ∧
       lookup r.state.edgeStore r.eid =
         some { eid := r.eid, vertex1 := a, vertex2 := b,
                direction := Direction.RIGHT, weight := w }) := by
  refine ⟨?_, ?_, ?_⟩
  · rw [vedge_eq s a b w va hva]
    dsimp only
    refine ⟨_, rfl, ?_⟩
    rw [save_rel_edgeStore]
    exact lookup_cons_self _ _ _
  · rw [vledge_eq s a b w va hva hWF.2.2.1]
    dsimp only
    refine ⟨_, rfl, ?_⟩
    rw [save_rel_edgeStore]
    exact lookup_cons_self _ _ _
  · rw [vredge_eq s a b w va hva hWF.2.2.1]
    dsimp only
    refine ⟨_, rfl, ?_⟩
    rw [save_rel_edgeStore]
    exact lookup_cons_self _ _ _

/-- C7 witness: the direction/endpoint theorem applied to `v1`, `v2` in
graph 0. -/
theorem edge_direction_endpoints_witness :
    ∃ r, Vertex.edge demoS2.2 demoS1.1 demoS2.1 Value.vnone = Except.ok r ∧
      lookup r.state.edgeStore r.eid =
        some { eid := r.eid, vertex1 := demoS1.1, vertex2 := demoS2.1,
               direction := Direction.NONE, weight := Value.vnone } :=
  (edge_direction_endpoints demoS2.2 demoS1.1 demoS2.1 Value.vnone
    { vid := 1, value := Value.vint 1, graph := 0 } (by decide) (by decide)).1

/-- C8: `e.update(w)` (the `__call__` operator) returns the same edge
identity, rewrites only that edge's `weight` on the heap — identity,
endpoints and direction unchanged — and leaves the graph store, the
vertex store, the identity counter and every other edge untouched. -/
theorem update_in_place (s : State) (eid : Nat) (w : Value) (ed : Edge)
    (hed : lookup s.edgeStore eid = some ed) :
    (Edge.update s eid w).1 = eid ∧
    lookup (Edge.update s eid w).2.edgeStore eid =
      some { eid := ed.eid, vertex1 := ed.vertex1, vertex2 := ed.vertex2,
             direction := ed.direction, weight := w } ∧
    (Edge.update s eid w).2.graphStore = s.graphStore ∧
    (Edge.update s eid w).2.vertexStore = s.vertexStore ∧
    (Edge.update s eid w).2.nextId = s.nextId ∧
    (∀ j, j ≠ eid → lookup (Edge.update s eid w).2.edgeStore j = lookup s.edgeStore j) := by
  refine ⟨rfl, ?_, rfl, rfl, rfl, ?_⟩
  · rw [show (Edge.update s eid w).2.edgeStore =
        setStore s.edgeStore eid (fun e => { e with weight := w }) from rfl,
      lookup_setStore_self, hed, Option.map_some']
  · intro j hj
    rw [show (Edge.update s eid w).2.edgeStore =
        setStore s.edgeStore eid (fun e => { e with weight := w }) from rfl,
      lookup_setStore_ne _ _ _ _ (Ne.symm hj)]

/-- C8 witness: updating the weight of the concrete `v1.redge(v2, "W")`
edge to `"Z"` in place. -/
theorem update_in_place_witness :
    lookup (Edge.update demoRedge.state demoRedge.eid (Value.vstr "Z")).2.edgeStore
      demoRedge.eid =
      some { eid := 3, vertex1 := 1, vertex2 := 2,
             direction := Direction.RIGHT, weight := Value.vstr "Z" } :=
  (update_in_place demoRedge.state demoRedge.eid (Value.vstr "Z")
    { eid := 3, vertex1 := 1, vertex2 := 2,
      direction := Direction.RIGHT, weight := Value.vstr "W" }
    (by decide)).2.1

/-- C9: in the scenario `g = Graph(); v1 = g.create_vertex(1);
v2 = g.create_vertex(2); e = v1.redge(v2, "W")`, the rendering `str(e)`
is exactly the string the specification gives, with JSON-canonical
values and the right-direction arrow. -/
theorem redge_render_scenario :
    edgeTextAt demoRedge.state demoRedge.eid =
      "(value: 1) --[weight: \"W\"]--> (value: 2)" := by
  rfl

/-- C10: the operator forms are definitionally the named methods with no
weight supplied: `-` is `edge`, `<` is `ledge`, `>` is `redge`, on both
Vertex and Edge receivers. -/
theorem operators_are_sugar :
    (∀ (s : State) (a b : Nat),
       Vertex.subOp s a b = Vertex.edge s a b Value.vnone ∧
       Vertex.ltOp s a b = Vertex.ledge s a b Value.vnone ∧
       Vertex.gtOp s a b = Vertex.redge s a b Value.vnone) ∧
    (∀ (s : State) (e : Nat) (t : Target),
       Edge.subOp s e t = Edge.edge s e t Value.vnone ∧
       Edge.ltOp s e t = Edge.ledge s e t Value.vnone ∧
       Edge.gtOp s e t = Edge.redge s e t Value.vnone) :=
  ⟨fun _ _ _ => ⟨rfl, rfl, rfl⟩, fun _ _ _ => ⟨rfl, rfl, rfl⟩⟩

end GraphPy
